import Mathlib

/-!
Shallow embedding of the retrieval, storage and gateway layers of the
lindorm-memobase core, together with proofs of the specification claims
about them.  The Python sources embedded here are
`core/search/events.py`, `core/storage/user_profiles.py`,
`llm/complete.py` and the façade methods of `main.py`.
-/

namespace Memobase

/-- Modelled from the spec: the typed error codes of the deferred result
wrapper (`utils/promise.py` is not among the sources); the constructors are
the codes used at the call sites in `core/search/events.py`,
`core/storage/user_profiles.py` and `llm/complete.py`. -/
inductive CODE where
  | NOT_IMPLEMENTED
  | SERVICE_UNAVAILABLE
  | UNPROCESSABLE_ENTITY
  | SERVER_PROCESS_ERROR
deriving DecidableEq

/-- Modelled from the spec: the deferred result wrapper (`utils/promise.py`,
not among the sources).  Every fallible operation returns either a resolved
value (`Promise.resolve`) or a rejection carrying a typed code and a
message (`Promise.reject`), inspected through `ok()` / `data()` / `msg()`. -/
inductive Promise (α : Type) where
  | resolve (d : α)
  | reject (code : CODE) (msg : String)
deriving DecidableEq

/-- `Promise.ok()` of the source: `true` exactly on resolved results. -/
def Promise.ok {α : Type} : Promise α → Bool
  | .resolve _ => true
  | .reject _ _ => false

/-! ## Event gist retrieval (`core/search/events.py`) -/

/-- The `gist_data` payload of an event gist (its `content` field is the
only part the embedded code reads). -/
structure GistData where
  content : String
deriving DecidableEq

/-- One stored `user_event_gists` row as queried by `core/search/events.py`.
The embedding may be `NULL` (`Option`).  Timestamps are modelled as integers
counting days, so that `func.now() - timedelta(days=d)` becomes `now - d`. -/
structure UserEventGist (Emb : Type) where
  id : Nat
  user_id : Nat
  project_id : Nat
  gist_data : GistData
  embedding : Option Emb
  created_at : Int
  updated_at : Int
deriving DecidableEq

/-- One element of the search / retrieval result
(`UserEventGistData` of `models/response.py`): the row fields plus the
similarity, which only the vector search fills in. -/
structure UserEventGistData (Q : Type) where
  id : Nat
  gist_data : GistData
  created_at : Int
  updated_at : Int
  similarity : Option Q
deriving DecidableEq

/-- `UserEventGistsData` of `models/response.py`: a list of gists. -/
structure UserEventGistsData (Q : Type) where
  gists : List (UserEventGistData Q)
deriving DecidableEq

/-- The slice of `Config` read by the embedded functions. -/
structure Config where
  enable_event_embedding : Bool
  best_llm_model : String
deriving DecidableEq

/-- The ambient state `core/search/events.py` runs against: the stored
rows, the database clock `func.now()`, the module-level `project_id`, the
store's `cosine_distance`, and `get_embedding` specialised to the
one-element batch the module always sends (the source calls
`get_embedding([query], ...)` and reads element `[0]` of the result). -/
structure EventEnv (Emb Q : Type) where
  store : List (UserEventGist Emb)
  now : Int
  project_id : Nat
  cosine_distance : Emb → Emb → Q
  get_embedding : String → Promise Emb

/-- The similarity expression `1 - UserEventGist.embedding.cosine_distance
(query_embedding)`; on a `NULL` embedding the SQL expression is `NULL` and
every comparison with it is false, which the callers reproduce by testing
`embedding.isSome` first. -/
def rowSim {Emb Q : Type} [LinearOrderedRing Q] (env : EventEnv Emb Q) (qe : Emb) (g : UserEventGist Emb) : Q :=
  match g.embedding with
  | some e => 1 - env.cosine_distance e qe
  | none => 0

/-- The `WHERE` clause of the vector-search statement: user and project
scope, `created_at > now - timedelta(days=time_range_in_days)`,
`similarity > similarity_threshold`, and `embedding IS NOT NULL`. -/
def searchHit {Emb Q : Type} [LinearOrderedRing Q] (env : EventEnv Emb Q) (qe : Emb) (user_id : Nat)
    (similarity_threshold : Q) (time_range_in_days : Int) (g : UserEventGist Emb) : Bool :=
  g.user_id == user_id && g.project_id == env.project_id &&
    decide (g.created_at > env.now - time_range_in_days) &&
    g.embedding.isSome && decide (rowSim env qe g > similarity_threshold)

/-- `ORDER BY similarity DESC`, as a relation on rows. -/
def simGE {Emb Q : Type} [LinearOrderedRing Q] (env : EventEnv Emb Q) (qe : Emb) (a b : UserEventGist Emb) : Prop :=
  rowSim env qe b ≤ rowSim env qe a

instance {Emb Q : Type} [LinearOrderedRing Q] (env : EventEnv Emb Q) (qe : Emb) :
    DecidableRel (simGE env qe) := fun a b =>
  inferInstanceAs (Decidable (rowSim env qe b ≤ rowSim env qe a))

instance {Emb Q : Type} [LinearOrderedRing Q] (env : EventEnv Emb Q) (qe : Emb) :
    IsTotal (UserEventGist Emb) (simGE env qe) :=
  ⟨fun a b => le_total (rowSim env qe b) (rowSim env qe a)⟩

instance {Emb Q : Type} [LinearOrderedRing Q] (env : EventEnv Emb Q) (qe : Emb) :
    IsTrans (UserEventGist Emb) (simGE env qe) :=
  ⟨fun _ _ _ h1 h2 => le_trans h2 h1⟩

/-- The record the search loop builds for each returned row
(`UserEventGistData(id=..., gist_data=..., ..., similarity=similarity)`). -/
def gistOfRow {Emb Q : Type} [LinearOrderedRing Q] (env : EventEnv Emb Q) (qe : Emb)
    (g : UserEventGist Emb) : UserEventGistData Q :=
  { id := g.id, gist_data := g.gist_data, created_at := g.created_at,
    updated_at := g.updated_at, similarity := some (rowSim env qe g) }

/-- `search_user_event_gists` of `core/search/events.py`: refuse when event
embedding is disabled, embed the query, then select the scoped rows inside
the time window with non-null embedding and similarity above the
threshold, ordered by similarity descending, limited to `topk`.  The SQL
`ORDER BY` names the similarity column only, so ties keep the store's
order (modelled by a stable insertion sort). -/
def search_user_event_gists {Emb Q : Type} [LinearOrderedRing Q] (env : EventEnv Emb Q) (user_id : Nat)
    (query : String) (global_config : Config) (topk : Nat)
    (similarity_threshold : Q) (time_range_in_days : Int) :
    Promise (UserEventGistsData Q) :=
  if !global_config.enable_event_embedding then
    .reject CODE.NOT_IMPLEMENTED "Event embedding is not enabled"
  else
    match env.get_embedding query with
    | .reject c m => .reject c m
    | .resolve qe =>
      let rows := env.store.filter
        (searchHit env qe user_id similarity_threshold time_range_in_days)
      let sorted := List.insertionSort (simGE env qe) rows
      .resolve { gists := (sorted.take topk).map (gistOfRow env qe) }

/-- The filter of the recent-gists query: user and project scope and
`created_at > now - timedelta(days=time_range_in_days)`. -/
def recentHit {Emb Q : Type} [LinearOrderedRing Q] (env : EventEnv Emb Q) (user_id : Nat)
    (time_range_in_days : Int) (g : UserEventGist Emb) : Bool :=
  g.user_id == user_id && g.project_id == env.project_id &&
    decide (g.created_at > env.now - time_range_in_days)

/-- `ORDER BY created_at DESC`, as a relation on rows. -/
def createdGE {E : Type} (a b : UserEventGist E) : Prop :=
  b.created_at ≤ a.created_at

instance {E : Type} : DecidableRel (createdGE (E := E)) := fun a b =>
  inferInstanceAs (Decidable (b.created_at ≤ a.created_at))

instance {E : Type} : IsTotal (UserEventGist E) createdGE :=
  ⟨fun a b => le_total b.created_at a.created_at⟩

instance {E : Type} : IsTrans (UserEventGist E) createdGE :=
  ⟨fun _ _ _ h1 h2 => le_trans h2 h1⟩

/-- The dict the recent-gists loop builds for each row (no similarity). -/
def gistOfRowRecent {Emb Q : Type} (g : UserEventGist Emb) : UserEventGistData Q :=
  { id := g.id, gist_data := g.gist_data, created_at := g.created_at,
    updated_at := g.updated_at, similarity := none }

/-- `get_user_event_gists` of `core/search/events.py`: the scoped rows in
the time window, ordered by `created_at` descending, limited to `topk`;
always resolves (an empty selection resolves with the empty list). -/
def get_user_event_gists {Emb Q : Type} [LinearOrderedRing Q] (env : EventEnv Emb Q) (user_id : Nat)
    (topk : Nat) (time_range_in_days : Int) : Promise (UserEventGistsData Q) :=
  let rows := env.store.filter (recentHit env user_id time_range_in_days)
  let sorted := List.insertionSort (createdGE (E := Emb)) rows
  .resolve { gists := (sorted.take topk).map gistOfRowRecent }

/-- `OpenAICompatibleMessage` of `models/blob.py`: role and content. -/
structure OpenAICompatibleMessage where
  role : String
  content : String
deriving DecidableEq

/-- `pack_latest_chat` of `core/search/events.py`: the contents of the last
`chat_num` messages (`chats[-chat_num:]`) joined by newlines. -/
def pack_latest_chat (chats : List OpenAICompatibleMessage) (chat_num : Nat) : String :=
  String.intercalate "\n" ((chats.drop (chats.length - chat_num)).map (fun m => m.content))

/-- `get_user_event_gists_data` of `core/search/events.py`: when the chat
tail is non-empty (Python truthiness of `chats`) and event embedding is
enabled, vector-search with the packed query, `topk=60` and the given
threshold; otherwise fall back to the recent-gists retrieval with
`topk=60`. -/
def get_user_event_gists_data {Emb Q : Type} [LinearOrderedRing Q] (env : EventEnv Emb Q) (user_id : Nat)
    (chats : List OpenAICompatibleMessage) (require_event_summary : Bool)
    (event_similarity_threshold : Q) (time_range_in_days : Int)
    (global_config : Config) : Promise (UserEventGistsData Q) :=
  if !chats.isEmpty && global_config.enable_event_embedding then
    search_user_event_gists env user_id (pack_latest_chat chats 3) global_config 60
      event_similarity_threshold time_range_in_days
  else
    get_user_event_gists env user_id 60 time_range_in_days

/-- The loop of `truncate_event_gists`: accumulate
`len(get_encoded_tokens(r.gist_data.content))`, stop (`break`) at the first
gist whose cumulative count exceeds the budget. -/
def truncateGo {Q : Type} (get_encoded_tokens : String → List Nat) (max_token_size : Int) :
    Int → List (UserEventGistData Q) → List (UserEventGistData Q)
  | _, [] => []
  | c_tokens, r :: rs =>
    let c' := c_tokens + ((get_encoded_tokens r.gist_data.content).length : Int)
    if c' > max_token_size then [] else
      r :: truncateGo get_encoded_tokens max_token_size c' rs

/-- `truncate_event_gists` of `core/search/events.py`, parametric in the
shared tokenizer `get_encoded_tokens` (`utils/tools.py`, not among the
sources): `None` budget returns the input unchanged, a numeric budget keeps
the greedy prefix of the gists whose summed token counts fit. -/
def truncate_event_gists {Q : Type} (get_encoded_tokens : String → List Nat)
    (events : UserEventGistsData Q) (max_token_size : Option Int) :
    Promise (UserEventGistsData Q) :=
  match max_token_size with
  | none => .resolve events
  | some m => .resolve { gists := truncateGo get_encoded_tokens m 0 events.gists }

/-! ## LLM gateway (`llm/complete.py`) -/

/-- The two shapes `llm_complete` can resolve with: raw text, or the parsed
JSON object (`J` abstracts the JSON value type). -/
inductive LLMResponse (J : Type) where
  | text (s : String)
  | parsed (j : J)
deriving DecidableEq

/-- `llm_complete` of `llm/complete.py`, parametric in the provider call
(`FACTORIES[config.llm_style]`, selected adapters not among the sources;
an `Except.error` is a raised transport exception) and in
`convert_response_to_json` (`core/extraction/prompts/utils.py`, not among
the sources; `none` is a parse failure).  The provider is called with
`use_model = model or config.best_llm_model` and the prompt; a raised
exception is caught and rejected as `SERVICE_UNAVAILABLE`; without
`json_mode` the raw text is resolved unparsed; with `json_mode` the parsed
object is resolved, or the result is rejected as `UNPROCESSABLE_ENTITY`. -/
def llm_complete {J : Type} (llm_call : String → String → Except String String)
    (convert_response_to_json : String → Option J) (prompt : String)
    (json_mode : Bool) (model : Option String) (config : Config) :
    Promise (LLMResponse J) :=
  let use_model := model.getD config.best_llm_model
  match llm_call use_model prompt with
  | .error e => .reject CODE.SERVICE_UNAVAILABLE ("Error in llm_complete: " ++ e)
  | .ok results =>
    if !json_mode then .resolve (.text results)
    else
      match convert_response_to_json results with
      | some parse_dict => .resolve (.parsed parse_dict)
      | none => .reject CODE.UNPROCESSABLE_ENTITY "Failed to parse JSON response"

/-! ## Profile store (`core/storage/user_profiles.py`) -/

/-- One `user_profiles` row; `(user_id, profile_id)` is the primary key.
`attributes` is modelled as the decoded JSON dict. -/
structure ProfileRow where
  user_id : String
  profile_id : String
  content : String
  attributes : List (String × String)
  created_at : String
  updated_at : String
deriving DecidableEq

/-- The `WHERE user_id = %s AND profile_id = %s` test of the UPDATE and the
row-existence test. -/
def rowKeyMatches (user_id profile_id : String) (r : ProfileRow) : Bool :=
  r.user_id == user_id && r.profile_id == profile_id

/-- The effect of one UPDATE statement of `update_profiles` on one row:
rows matching the key get the new content, the new attributes when given
(`attributes is not None`), and `updated_at = now`; other rows are left
alone. -/
def applyUpdateRow (user_id profile_id content : String)
    (attributes : Option (List (String × String))) (now : String)
    (r : ProfileRow) : ProfileRow :=
  if rowKeyMatches user_id profile_id r then
    { r with content := content, attributes := attributes.getD r.attributes,
             updated_at := now }
  else r

/-- `zip(profile_ids, contents, attributes_list)` of the source: truncating
three-way zip. -/
def zip3 {α β γ : Type} : List α → List β → List γ → List (α × β × γ)
  | a :: as, b :: bs, c :: cs => (a, b, c) :: zip3 as bs cs
  | _, _, _ => []

/-- One batch item of `update_profiles`: `(profile_id, content, attributes?)`. -/
abbrev UpdateItem := String × String × Option (List (String × String))

/-- The whole batch applied to one row, in batch order. -/
def updRowBatch (user_id now : String) (batch : List UpdateItem)
    (r : ProfileRow) : ProfileRow :=
  batch.foldl (fun r it => applyUpdateRow user_id it.1 it.2.1 it.2.2 now r) r

/-- `LindormTableStorage.update_profiles`: for each zipped
`(profile_id, content, attributes?)` run one UPDATE; when its `rowcount` is
positive (the keyed row exists) collect the id; resolve with the collected
ids.  The per-item `datetime.utcnow()` is modelled by the single `now`
argument.  The result also carries the table state after the batch. -/
def update_profiles (state : List ProfileRow) (now user_id : String)
    (profile_ids contents : List String)
    (attributes_list : List (Option (List (String × String)))) :
    Promise (List String) × List ProfileRow :=
  let batch := zip3 profile_ids contents attributes_list
  let step := fun (acc : List String × List ProfileRow) (it : UpdateItem) =>
    (if acc.2.any (rowKeyMatches user_id it.1) then acc.1 ++ [it.1] else acc.1,
     acc.2.map (applyUpdateRow user_id it.1 it.2.1 it.2.2 now))
  let res := batch.foldl step ([], state)
  (.resolve res.1, res.2)

/-- The `WHERE profile_id IN (...) AND user_id = %s` test of the DELETE. -/
def deleteHit (user_id : String) (profile_ids : List String) (r : ProfileRow) : Bool :=
  profile_ids.contains r.profile_id && r.user_id == user_id

/-- `LindormTableStorage.delete_profiles`: the statement interpolates one
`%s` placeholder per id into the `IN` clause, so an empty id list renders
`IN ()`, which MySQL rejects as a syntax error; the raised exception is
caught and rejected as `SERVER_PROCESS_ERROR`.  Otherwise the matching
rows are deleted and their count (`cursor.rowcount`) is resolved.  The
result also carries the table state after the statement. -/
def delete_profiles (state : List ProfileRow) (user_id : String)
    (profile_ids : List String) : Promise Nat × List ProfileRow :=
  if profile_ids.isEmpty then
    (.reject CODE.SERVER_PROCESS_ERROR
       "Failed to delete profiles: SQL syntax error near the empty IN clause",
     state)
  else
    (.resolve (state.countP (deleteHit user_id profile_ids)),
     state.filter (fun r => !deleteHit user_id profile_ids r))

/-! ## Façade (`main.py`) -/

/-- One `ProfileData` element as the façade reads it from storage:
`attributes` is the decoded dict, `updated_at` an optional timestamp. -/
structure ProfileData where
  id : String
  content : String
  attributes : List (String × String)
  updated_at : Option Int
deriving DecidableEq

/-- `ProfileEntry` of `models/types.py` as built by the façade:
`content` plus `last_updated = updated_at.timestamp() if ... else None`. -/
structure ProfileEntry where
  content : String
  last_updated : Option Int
deriving DecidableEq

/-- `Profile` of `models/types.py` as built by the façade: a topic and its
insertion-ordered dict of subtopic entries. -/
structure Profile where
  topic : String
  subtopics : List (String × ProfileEntry)
deriving DecidableEq

/-- Python `dict.get(key, default)` over an insertion-ordered dict. -/
def dictGet (d : List (String × String)) (k default : String) : String :=
  match d.find? (fun kv => kv.1 == k) with
  | some kv => kv.2
  | none => default

/-- Python `d[k] = v` over an insertion-ordered dict: an existing key keeps
its position and gets the new value, a new key is appended. -/
def dictInsert {β : Type} : List (String × β) → String → β → List (String × β)
  | [], k, v => [(k, v)]
  | kv :: rest, k, v =>
    if kv.1 == k then (kv.1, v) :: rest else kv :: dictInsert rest k v

/-- Python `d[k]` lookup (first, hence unique, occurrence). -/
def dictLookup {β : Type} (d : List (String × β)) (k : String) : Option β :=
  (d.find? (fun kv => kv.1 == k)).map (fun kv => kv.2)

/-- `profile_data.attributes.get("topic", "general")`. -/
def profileTopicOf (pd : ProfileData) : String :=
  dictGet pd.attributes "topic" "general"

/-- `profile_data.attributes.get("sub_topic", "general")`. -/
def profileSubtopicOf (pd : ProfileData) : String :=
  dictGet pd.attributes "sub_topic" "general"

/-- The `ProfileEntry(...)` built from one raw profile row. -/
def entryOfProfileData (pd : ProfileData) : ProfileEntry :=
  { content := pd.content, last_updated := pd.updated_at }

/-- The nested dict state of the façade grouping loops
(`topic_groups : topic → sub_topic → entry`). -/
abbrev TopicGroups := List (String × List (String × ProfileEntry))

/-- One iteration of the grouping loop shared by `get_user_profiles` and
`get_relevant_profiles`: create the topic's inner dict when absent, then
assign `topic_groups[topic][subtopic] = entry` (a later row with the same
keys overwrites the earlier entry). -/
def groupStep (acc : TopicGroups) (pd : ProfileData) : TopicGroups :=
  let topic := profileTopicOf pd
  let inner := (dictLookup acc topic).getD []
  dictInsert acc topic (dictInsert inner (profileSubtopicOf pd) (entryOfProfileData pd))

/-- The final `Profile(topic=..., subtopics=...)` list built from the
groups, in first-insertion order of the topics. -/
def profilesOfGroups (groups : TopicGroups) : List Profile :=
  groups.map (fun g => { topic := g.1, subtopics := g.2 })

/-- The topic filter of the façade's `get_user_profiles` loop:
`if topics and topic not in topics: continue` (an empty or absent `topics`
filters nothing, by Python truthiness). -/
def topicAccepted (topics : Option (List String)) (pd : ProfileData) : Bool :=
  !(!(topics.getD []).isEmpty && !(topics.getD []).contains (profileTopicOf pd))

/-- `LindormMemobase.get_user_profiles` on the storage result: raise on a
rejected read, otherwise group the raw rows (optionally filtered by
`topics`) by topic and sub_topic and return the `Profile` list. -/
def facade_get_user_profiles (profiles_result : Promise (List ProfileData))
    (topics : Option (List String)) : Except String (List Profile) :=
  match profiles_result with
  | .reject _ m => .error ("Failed to get user profiles: " ++ m)
  | .resolve raw_profiles =>
    .ok (profilesOfGroups (raw_profiles.foldl
      (fun acc pd => if topicAccepted topics pd then groupStep acc pd else acc) []))

/-- The signature of `get_user_profiles_data`
(`core/search/user_profiles.py`, not among the sources), abstracted: the
arguments are, in order, `user_id`, `max_profile_token_size`,
`prefer_topics`, `only_topics`, `max_subtopic_size`, `topic_limits`,
`chats`, `full_profile_and_only_search_event`, `global_config`; it
resolves with `(profile_section, raw_profiles)`. -/
abbrev GetUserProfilesData :=
  String → Int → Option (List String) → Option (List String) → Option Nat →
    List (String × Nat) → List OpenAICompatibleMessage → Bool → Config →
    Promise (String × List ProfileData)

/-- `LindormMemobase.get_relevant_profiles`: call `get_user_profiles_data`
with `prefer_topics=None`, `only_topics=topics`,
`topic_limits = topic_limits or \x7b\x7d`; raise on rejection; group the first
`max_profiles` raw rows (`raw_profiles[:max_profiles]`, no topic filter in
this loop) into `Profile` objects. -/
def get_relevant_profiles (gupd : GetUserProfilesData) (user_id : String)
    (conversation : List OpenAICompatibleMessage) (topics : Option (List String))
    (max_profiles : Nat) (max_profile_token_size : Int)
    (max_subtopic_size : Option Nat) (topic_limits : Option (List (String × Nat)))
    (full_profile_and_only_search_event : Bool) (config : Config) :
    Except String (List Profile) :=
  match gupd user_id max_profile_token_size none topics max_subtopic_size
      (topic_limits.getD []) conversation full_profile_and_only_search_event config with
  | .reject _ m => .error ("Failed to get relevant profiles: " ++ m)
  | .resolve pr =>
    .ok (profilesOfGroups ((pr.2.take max_profiles).foldl groupStep []))

/-- `LindormMemobase.search_profiles`: build the mock one-message
conversation `[OpenAICompatibleMessage(role="user", content=query)]` and
delegate to `get_relevant_profiles` with `topics` and
`max_profiles=max_results`, every other parameter at its default
(`max_profile_token_size=4000`, `max_subtopic_size=None`,
`topic_limits=None`, `full_profile_and_only_search_event=False`). -/
def search_profiles (gupd : GetUserProfilesData) (user_id query : String)
    (topics : Option (List String)) (max_results : Nat) (config : Config) :
    Except String (List Profile) :=
  let mock_conversation : List OpenAICompatibleMessage :=
    [{ role := "user", content := query }]
  get_relevant_profiles gupd user_id mock_conversation topics max_results
    4000 none none false config

/-- C8 spec-side definition, written from the spec's words:
"`search_profiles` is implemented as `get_relevant_profiles` with a
synthetic one-message conversation containing the query" — the synthetic
conversation is a single user-role message whose content is the query, the
topics are passed through, and `max_profiles` is `max_results`. -/
def search_profiles_spec (gupd : GetUserProfilesData) (user_id query : String)
    (topics : Option (List String)) (max_results : Nat) (config : Config) :
    Except String (List Profile) :=
  get_relevant_profiles gupd user_id [{ role := "user", content := query }]
    topics max_results 4000 none none false config

/-! ## Concrete instances used by witnesses and counterexamples -/

/-- A configuration with event embedding enabled. -/
def cfgOn : Config := { enable_event_embedding := true, best_llm_model := "m" }

/-- A configuration with event embedding disabled. -/
def cfgOff : Config := { enable_event_embedding := false, best_llm_model := "m" }

/-- A stored gist row with an embedding, inside the 21-day window of a
clock at 100. -/
def rowW : UserEventGist Int :=
  { id := 1, user_id := 1, project_id := 0, gist_data := { content := "g" },
    embedding := some 0, created_at := 90, updated_at := 90 }

/-- A one-row event store whose similarity is constantly `1`. -/
def envW : EventEnv Int Int :=
  { store := [rowW], now := 100, project_id := 0,
    cosine_distance := fun _ _ => 0, get_embedding := fun _ => .resolve 0 }

/-! ## C5: truncation of event gists -/

/-- The summed token counts of a gist list under the tokenizer. -/
def gistTokenSum {Q : Type} (enc : String → List Nat) (l : List (UserEventGistData Q)) : Nat :=
  (l.map (fun g => (enc g.gist_data.content).length)).sum

@[simp]
lemma gistTokenSum_nil {Q : Type} (enc : String → List Nat) :
    gistTokenSum (Q := Q) enc [] = 0 := rfl

@[simp]
lemma gistTokenSum_cons {Q : Type} (enc : String → List Nat) (g : UserEventGistData Q)
    (l : List (UserEventGistData Q)) :
    gistTokenSum enc (g :: l) = (enc g.gist_data.content).length + gistTokenSum enc l := rfl

lemma truncateGo_spec {Q : Type} (enc : String → List Nat) (m : Int) :
    ∀ (l : List (UserEventGistData Q)) (c : Int), c ≤ m →
      (∃ rest, l = truncateGo enc m c l ++ rest) ∧
      c + (gistTokenSum enc (truncateGo enc m c l) : Int) ≤ m ∧
      ∀ p q, l = p ++ q → c + (gistTokenSum enc p : Int) ≤ m →
        p.length ≤ (truncateGo enc m c l).length := by
  intro l
  induction l with
  | nil =>
    intro c hc
    refine ⟨⟨[], rfl⟩, by simpa [truncateGo] using hc, ?_⟩
    intro p q hpq _
    have : p = [] := by
      cases p with
      | nil => rfl
      | cons x xs => simp at hpq
    simp [this, truncateGo]
  | cons r rs ih =>
    intro c hc
    by_cases h : c + ((enc r.gist_data.content).length : Int) > m
    · have hgo : truncateGo enc m c (r :: rs) = [] := by
        simp only [truncateGo]
        rw [if_pos h]
      refine ⟨⟨r :: rs, by simp [hgo]⟩, by simpa [hgo] using hc, ?_⟩
      intro p q hpq hbud
      cases p with
      | nil => simp [hgo]
      | cons x xs =>
        exfalso
        injection hpq with h1 h2
        subst h1
        simp only [gistTokenSum_cons] at hbud
        have hnn : (0 : Int) ≤ (gistTokenSum enc xs : Int) := Int.natCast_nonneg _
        push_cast at hbud
        omega
    · have hle : c + ((enc r.gist_data.content).length : Int) ≤ m := not_lt.mp h
      have hgo : truncateGo enc m c (r :: rs) =
          r :: truncateGo enc m (c + ((enc r.gist_data.content).length : Int)) rs := by
        simp only [truncateGo]
        rw [if_neg h]
      obtain ⟨⟨rest, hrest⟩, hbud, hmax⟩ :=
        ih (c + ((enc r.gist_data.content).length : Int)) hle
      refine ⟨⟨rest, by rw [hgo]; simpa using congrArg (r :: ·) hrest⟩, ?_, ?_⟩
      · rw [hgo]
        simp only [gistTokenSum_cons]
        push_cast
        omega
      · intro p q hpq hbudp
        cases p with
        | nil => simp
        | cons x xs =>
          injection hpq with h1 h2
          subst h1
          simp only [gistTokenSum_cons] at hbudp
          have hx := hmax xs q h2 (by push_cast at hbudp ⊢; omega)
          rw [hgo]
          simpa using Nat.succ_le_succ hx

/-- C5: `truncate_event_gists` with a `None` budget returns the gists
unchanged; with a numeric budget `m ≥ 0` it returns the maximal prefix of
the input whose summed token counts under the shared tokenizer is at most
`m` — in particular the returned gists always fit within `m`. -/
theorem truncate_event_gists_budget_fit {Q : Type} (enc : String → List Nat)
    (events : UserEventGistsData Q) :
    truncate_event_gists enc events none = .resolve events ∧
    ∀ m : Int, 0 ≤ m → ∃ kept rest,
      truncate_event_gists enc events (some m) = .resolve { gists := kept } ∧
      events.gists = kept ++ rest ∧
      (gistTokenSum enc kept : Int) ≤ m ∧
      ∀ p q, events.gists = p ++ q → (gistTokenSum enc p : Int) ≤ m →
        p.length ≤ kept.length := by
  refine ⟨rfl, ?_⟩
  intro m hm
  obtain ⟨⟨rest, hrest⟩, hbud, hmax⟩ := truncateGo_spec enc m events.gists 0 hm
  exact ⟨truncateGo enc m 0 events.gists, rest, rfl, hrest, by simpa using hbud,
    fun p q hpq hb => hmax p q hpq (by simpa using hb)⟩

/-- A tokenizer for the witnesses: one token per character. -/
def encW : String → List Nat := fun s => List.replicate s.length 0

/-- A two-gist list for the C5 witness (contents of 1 and 3 tokens). -/
def evW : UserEventGistsData ℤ :=
  { gists := [{ id := 1, gist_data := { content := "a" }, created_at := 0,
                updated_at := 0, similarity := none },
              { id := 2, gist_data := { content := "bcd" }, created_at := 0,
                updated_at := 0, similarity := none }] }

/-- C5 witness: the theorem applied at a concrete tokenizer, gist list and
budget `2`, the hypothesis `0 ≤ 2` discharged by `decide`. -/
theorem truncate_event_gists_budget_fit_witness :
    truncate_event_gists encW evW none = .resolve evW ∧
    (∃ kept rest,
      truncate_event_gists encW evW (some 2) = .resolve { gists := kept } ∧
      evW.gists = kept ++ rest ∧
      (gistTokenSum encW kept : Int) ≤ 2 ∧
      ∀ p q, evW.gists = p ++ q → (gistTokenSum encW p : Int) ≤ 2 →
        p.length ≤ kept.length) :=
  ⟨(truncate_event_gists_budget_fit encW evW).1,
   (truncate_event_gists_budget_fit encW evW).2 2 (by decide)⟩

/-! ## C2: vector search refuses when event embedding is disabled -/

/-- C2: with `enable_event_embedding = false`, `search_user_event_gists`
rejects with the typed `NOT_IMPLEMENTED` code for every store, query and
parameter set — no search is performed and nothing else is returned. -/
theorem search_user_event_gists_not_implemented {Emb Q : Type} [LinearOrderedRing Q] (env : EventEnv Emb Q)
    (user_id : Nat) (query : String) (global_config : Config) (topk : Nat)
    (similarity_threshold : Q) (time_range_in_days : Int)
    (h : global_config.enable_event_embedding = false) :
    search_user_event_gists env user_id query global_config topk
        similarity_threshold time_range_in_days =
      .reject CODE.NOT_IMPLEMENTED "Event embedding is not enabled" := by
  simp [search_user_event_gists, h]

/-- C2 witness: the theorem applied at a concrete store and disabled
configuration. -/
theorem search_user_event_gists_not_implemented_witness :
    search_user_event_gists envW 1 "q" cfgOff 10 0 21 =
      .reject CODE.NOT_IMPLEMENTED "Event embedding is not enabled" :=
  search_user_event_gists_not_implemented envW 1 "q" cfgOff 10 0 21 rfl

/-! ## C7: gateway error handling -/

/-- C7: `llm_complete` rejects with `SERVICE_UNAVAILABLE` when the provider
call raises; with `json_mode` it resolves the parsed object or rejects with
`UNPROCESSABLE_ENTITY` when parsing fails; without `json_mode` it resolves
the raw text unparsed. -/
theorem llm_complete_spec {J : Type} (llm_call : String → String → Except String String)
    (conv : String → Option J) (prompt : String) (json_mode : Bool)
    (model : Option String) (config : Config) :
    (∀ e, llm_call (model.getD config.best_llm_model) prompt = .error e →
      llm_complete llm_call conv prompt json_mode model config =
        .reject CODE.SERVICE_UNAVAILABLE ("Error in llm_complete: " ++ e)) ∧
    (∀ s, llm_call (model.getD config.best_llm_model) prompt = .ok s →
      (json_mode = false →
        llm_complete llm_call conv prompt json_mode model config = .resolve (.text s)) ∧
      (json_mode = true → ∀ j, conv s = some j →
        llm_complete llm_call conv prompt json_mode model config = .resolve (.parsed j)) ∧
      (json_mode = true → conv s = none →
        llm_complete llm_call conv prompt json_mode model config =
          .reject CODE.UNPROCESSABLE_ENTITY "Failed to parse JSON response")) := by
  refine ⟨fun e he => ?_, fun s hs => ⟨fun hj => ?_, fun hj j hp => ?_, fun hj hp => ?_⟩⟩
  · simp [llm_complete, he]
  · simp [llm_complete, hs, hj]
  · simp [llm_complete, hs, hj, hp]
  · simp [llm_complete, hs, hj, hp]

/-- Provider call that raises, for the C7 witness. -/
def llmCallErr : String → String → Except String String := fun _ _ => .error "boom"

/-- Provider call that answers `"hi"`, for the C7 witness. -/
def llmCallOk : String → String → Except String String := fun _ _ => .ok "hi"

/-- Parser accepting exactly `"hi"`, for the C7 witness. -/
def convW : String → Option Nat := fun s => if s = "hi" then some 7 else none

/-- C7 witness: the theorem applied on a raising provider, and on a
successful provider in json mode with a successful parse and with a failing
parse, each hypothesis discharged at the concrete input. -/
theorem llm_complete_spec_witness :
    llm_complete llmCallErr convW "p" true none cfgOn =
      .reject CODE.SERVICE_UNAVAILABLE "Error in llm_complete: boom" ∧
    llm_complete llmCallOk convW "p" true none cfgOn = .resolve (.parsed 7) ∧
    llm_complete llmCallOk convW "p" false none cfgOn = .resolve (.text "hi") ∧
    llm_complete llmCallOk (fun _ => (none : Option Nat)) "p" true none cfgOn =
      .reject CODE.UNPROCESSABLE_ENTITY "Failed to parse JSON response" :=
  ⟨(llm_complete_spec llmCallErr convW "p" true none cfgOn).1 "boom" rfl,
   (((llm_complete_spec llmCallOk convW "p" true none cfgOn).2 "hi" rfl).2.1 rfl 7 rfl),
   (((llm_complete_spec llmCallOk convW "p" false none cfgOn).2 "hi" rfl).1 rfl),
   (((llm_complete_spec llmCallOk (fun _ => (none : Option Nat)) "p" true none
      cfgOn).2 "hi" rfl).2.2 rfl rfl)⟩

/-! ## C8: search_profiles delegates to get_relevant_profiles -/

/-- C8: `search_profiles` returns exactly `get_relevant_profiles` on the
synthetic one-message conversation holding the query as a user-role
message, the same topics, `max_profiles = max_results`, and the defaults of
the remaining parameters; equivalently it coincides with the spec-side
reading `search_profiles_spec`. -/
theorem search_profiles_refines (gupd : GetUserProfilesData) (user_id query : String)
    (topics : Option (List String)) (max_results : Nat) (config : Config) :
    search_profiles gupd user_id query topics max_results config =
      get_relevant_profiles gupd user_id [{ role := "user", content := query }]
        topics max_results 4000 none none false config ∧
    search_profiles gupd user_id query topics max_results config =
      search_profiles_spec gupd user_id query topics max_results config :=
  ⟨rfl, rfl⟩

/-! ## C10: profile deletion and the empty id list -/

/-- C10: deleting with an empty id list rejects with
`SERVER_PROCESS_ERROR` (the interpolated `IN ()` clause is invalid SQL) and
leaves the table unchanged; a non-empty list resolves with the number of
deleted rows belonging to the user, which is exactly the drop in table
size. -/
theorem delete_profiles_empty_rejects (state : List ProfileRow)
    (user_id : String) (profile_ids : List String) :
    (profile_ids = [] →
      delete_profiles state user_id profile_ids =
        (.reject CODE.SERVER_PROCESS_ERROR
          "Failed to delete profiles: SQL syntax error near the empty IN clause",
         state)) ∧
    (profile_ids ≠ [] →
      (delete_profiles state user_id profile_ids).1 =
        .resolve ((state.filter (deleteHit user_id profile_ids)).length) ∧
      (delete_profiles state user_id profile_ids).2 =
        state.filter (fun r => !deleteHit user_id profile_ids r) ∧
      (state.filter (deleteHit user_id profile_ids)).length =
        state.length - ((delete_profiles state user_id profile_ids).2).length) := by
  constructor
  · intro h
    subst h
    simp [delete_profiles]
  · intro h
    have hne : profile_ids.isEmpty = false := by
      cases profile_ids with
      | nil => exact absurd rfl h
      | cons a l => rfl
    refine ⟨by simp [delete_profiles, hne, List.countP_eq_length_filter], by simp [delete_profiles, hne], ?_⟩
    simp only [delete_profiles, hne, Bool.false_eq_true, if_false]
    have h := List.length_eq_length_filter_add (l := state) (deleteHit user_id profile_ids)
    omega

/-- A one-row profile table for the C10 witness. -/
def profRowW : ProfileRow :=
  { user_id := "u", profile_id := "p1", content := "c",
    attributes := [("topic", "t")], created_at := "0", updated_at := "0" }

/-- C10 witness: the theorem applied at a concrete table, once with the
empty id list and once with a non-empty one, each hypothesis discharged
there. -/
theorem delete_profiles_empty_rejects_witness :
    delete_profiles [profRowW] "u" [] =
      (.reject CODE.SERVER_PROCESS_ERROR
        "Failed to delete profiles: SQL syntax error near the empty IN clause",
       [profRowW]) ∧
    (delete_profiles [profRowW] "u" ["p1"]).1 =
      .resolve (([profRowW].filter (deleteHit "u" ["p1"])).length) :=
  ⟨(delete_profiles_empty_rejects [profRowW] "u" []).1 rfl,
   ((delete_profiles_empty_rejects [profRowW] "u" ["p1"]).2 (by decide)).1⟩

/-! ## C1: vector search of event gists -/

lemma search_user_event_gists_resolve {Emb Q : Type} [LinearOrderedRing Q] (env : EventEnv Emb Q)
    (user_id : Nat) (query : String) (cfg : Config) (topk : Nat) (θ : Q)
    (days : Int) (qe : Emb) (hcfg : cfg.enable_event_embedding = true)
    (hemb : env.get_embedding query = .resolve qe) :
    search_user_event_gists env user_id query cfg topk θ days =
      .resolve { gists := ((List.insertionSort (simGE env qe)
                  (env.store.filter (searchHit env qe user_id θ days))).take topk).map
                  (gistOfRow env qe) } := by
  simp [search_user_event_gists, hcfg, hemb]

/-- C1 (amended): every gist resolved by `search_user_event_gists` has
similarity at least the threshold (the `WHERE` clause is in fact strict),
`created_at` inside the time window, and stems from a stored row of the
user with a non-null embedding; the result is sorted by similarity
descending and holds at most `topk` gists.  The `ORDER BY` names only the
similarity, so the order among equal similarities is the store's order,
not `created_at` descending. -/
theorem search_user_event_gists_results {Emb Q : Type} [LinearOrderedRing Q] (env : EventEnv Emb Q)
    (user_id : Nat) (query : String) (cfg : Config) (topk : Nat) (θ : Q)
    (days : Int) (qe : Emb) (out : UserEventGistsData Q)
    (hemb : env.get_embedding query = .resolve qe)
    (hout : search_user_event_gists env user_id query cfg topk θ days = .resolve out) :
    out.gists.length ≤ topk ∧
    (∀ g ∈ out.gists,
      (∃ s, g.similarity = some s ∧ θ ≤ s) ∧
      g.created_at > env.now - days ∧
      (∃ row ∈ env.store, row.user_id = user_id ∧ row.embedding.isSome = true ∧
        rowSim env qe row > θ ∧ g = gistOfRow env qe row)) ∧
    List.Pairwise (fun a b => b.similarity.getD 0 ≤ a.similarity.getD 0) out.gists := by
  by_cases hcfg : cfg.enable_event_embedding = true
  · rw [search_user_event_gists_resolve env user_id query cfg topk θ days qe hcfg hemb]
      at hout
    injection hout with h
    subst h
    refine ⟨?_, ?_, ?_⟩
    · simp only [List.length_map]
      exact List.length_take_le _ _
    · intro g hg
      simp only [List.mem_map] at hg
      obtain ⟨row, hrow, rfl⟩ := hg
      have h1 := List.take_subset _ _ hrow
      have h2 := (List.mem_insertionSort (simGE env qe)).mp h1
      obtain ⟨hstore, hhit⟩ := List.mem_filter.mp h2
      simp only [searchHit, Bool.and_eq_true, beq_iff_eq, decide_eq_true_eq] at hhit
      obtain ⟨⟨⟨⟨hu, _⟩, ht⟩, hsome⟩, hsim⟩ := hhit
      exact ⟨⟨rowSim env qe row, rfl, le_of_lt hsim⟩, ht,
        ⟨row, hstore, hu, hsome, hsim, rfl⟩⟩
    · have hs := List.sorted_insertionSort (simGE env qe)
        (env.store.filter (searchHit env qe user_id θ days))
      have htk := List.Pairwise.sublist (List.take_sublist topk _) hs
      rw [List.pairwise_map]
      exact htk.imp (fun hab => by simpa [gistOfRow] using hab)
  · have hc : cfg.enable_event_embedding = false := by
      simpa using hcfg
    simp [search_user_event_gists, hc] at hout

/-- The single-gist result of the vector search over `envW`. -/
def outW : UserEventGistsData ℤ :=
  { gists := [{ id := 1, gist_data := { content := "g" }, created_at := 90,
                updated_at := 90, similarity := some 1 }] }

/-- C1 witness: the theorem applied at the concrete one-row store `envW`,
both hypotheses discharged there. -/
theorem search_user_event_gists_results_witness :
    outW.gists.length ≤ 10 ∧
    (∀ g ∈ outW.gists,
      (∃ s, g.similarity = some s ∧ (0 : ℤ) ≤ s) ∧
      g.created_at > envW.now - 21 ∧
      (∃ row ∈ envW.store, row.user_id = 1 ∧ row.embedding.isSome = true ∧
        rowSim envW 0 row > 0 ∧ g = gistOfRow envW 0 row)) ∧
    List.Pairwise (fun a b => b.similarity.getD 0 ≤ a.similarity.getD 0) outW.gists :=
  search_user_event_gists_results envW 1 "q" cfgOn 10 0 21 0 outW rfl (by decide)

/-- An older row tying on similarity with `rowB`. -/
def rowA : UserEventGist Int :=
  { id := 1, user_id := 1, project_id := 0, gist_data := { content := "a" },
    embedding := some 0, created_at := 90, updated_at := 90 }

/-- A newer row tying on similarity with `rowA`. -/
def rowB : UserEventGist Int :=
  { id := 2, user_id := 1, project_id := 0, gist_data := { content := "b" },
    embedding := some 0, created_at := 95, updated_at := 95 }

/-- A store holding the two tying rows, older first. -/
def envT : EventEnv Int Int :=
  { store := [rowA, rowB], now := 100, project_id := 0,
    cosine_distance := fun _ _ => 0, get_embedding := fun _ => .resolve 0 }

/-- C1 counterexample: two stored gists with equal similarity are returned
in the store's order — the older one first — so ties are not broken by
`created_at` descending as the claim states. -/
theorem search_user_event_gists_tie_counterexample :
    search_user_event_gists envT 1 "q" cfgOn 10 0 21 =
      .resolve { gists := [gistOfRow envT 0 rowA, gistOfRow envT 0 rowB] } ∧
    (gistOfRow envT 0 rowA).similarity = (gistOfRow envT 0 rowB).similarity ∧
    (gistOfRow envT 0 rowA).created_at < (gistOfRow envT 0 rowB).created_at := by
  decide

/-! ## C4: recent event gists -/

lemma get_user_event_gists_eq {Emb Q : Type} [LinearOrderedRing Q] (env : EventEnv Emb Q) (user_id : Nat)
    (topk : Nat) (days : Int) :
    get_user_event_gists env user_id topk days =
      .resolve { gists := ((List.insertionSort (createdGE (E := Emb))
                  (env.store.filter (recentHit env user_id days))).take topk).map
                  gistOfRowRecent } := rfl

/-- C4: `get_user_event_gists` always resolves (never an error); the result
holds at most `topk` gists, each created inside the time window and
stemming from a stored row of the user, sorted by `created_at` descending;
with no stored gists in the window it resolves with the empty list. -/
theorem get_user_event_gists_spec {Emb Q : Type} [LinearOrderedRing Q] (env : EventEnv Emb Q)
    (user_id : Nat) (topk : Nat) (days : Int) :
    (get_user_event_gists env user_id topk days).ok = true ∧
    ∀ out, get_user_event_gists env user_id topk days = .resolve out →
      out.gists.length ≤ topk ∧
      (∀ g ∈ out.gists, g.created_at > env.now - days ∧ g.similarity = none ∧
        ∃ row ∈ env.store, row.user_id = user_id ∧ g = gistOfRowRecent row) ∧
      List.Pairwise (fun a b => b.created_at ≤ a.created_at) out.gists ∧
      (env.store.filter (recentHit env user_id days) = [] → out.gists = []) := by
  refine ⟨rfl, ?_⟩
  intro out hout
  rw [get_user_event_gists_eq] at hout
  injection hout with h
  subst h
  refine ⟨?_, ?_, ?_, ?_⟩
  · simp only [List.length_map]
    exact List.length_take_le _ _
  · intro g hg
    simp only [List.mem_map] at hg
    obtain ⟨row, hrow, rfl⟩ := hg
    have h1 := List.take_subset _ _ hrow
    have h2 := (List.mem_insertionSort (createdGE (E := Emb))).mp h1
    obtain ⟨hstore, hhit⟩ := List.mem_filter.mp h2
    simp only [recentHit, Bool.and_eq_true, beq_iff_eq, decide_eq_true_eq] at hhit
    obtain ⟨⟨hu, _⟩, ht⟩ := hhit
    exact ⟨ht, rfl, ⟨row, hstore, hu, rfl⟩⟩
  · have hs := List.sorted_insertionSort (createdGE (E := Emb))
      (env.store.filter (recentHit env user_id days))
    have htk := List.Pairwise.sublist (List.take_sublist topk _) hs
    rw [List.pairwise_map]
    exact htk.imp (fun hab => by simpa [gistOfRowRecent, createdGE] using hab)
  · intro hfil
    rw [hfil]
    simp [List.insertionSort]

/-- C4 witness: the theorem applied at the concrete one-row store `envW`,
the inner resolution hypothesis discharged by `decide` at the concrete
output. -/
theorem get_user_event_gists_spec_witness :
    (get_user_event_gists envW 1 5 21).ok = true ∧
    (({ gists := [gistOfRowRecent rowW] } : UserEventGistsData ℤ).gists.length ≤ 5 ∧
      (∀ g ∈ ({ gists := [gistOfRowRecent rowW] } : UserEventGistsData ℤ).gists,
        g.created_at > envW.now - 21 ∧ g.similarity = none ∧
        ∃ row ∈ envW.store, row.user_id = 1 ∧ g = gistOfRowRecent row) ∧
      List.Pairwise (fun a b => b.created_at ≤ a.created_at)
        ({ gists := [gistOfRowRecent rowW] } : UserEventGistsData ℤ).gists ∧
      (envW.store.filter (recentHit envW 1 21) = [] →
        ({ gists := [gistOfRowRecent rowW] } : UserEventGistsData ℤ).gists = [])) :=
  ⟨(get_user_event_gists_spec envW 1 5 21).1,
   (get_user_event_gists_spec envW 1 5 21).2 { gists := [gistOfRowRecent rowW] }
     (by decide)⟩

/-! ## C3: retrieval path selection -/

/-- C3 (amended): `get_user_event_gists_data` vector-searches — with the
contents of at most the last 3 tail messages joined by newlines as query,
`topk = 60` and the given threshold — exactly when the tail is non-empty
AND event embedding is enabled; otherwise (in particular on an empty tail,
whatever the embedding flag) it calls the recent-gists retrieval with
`topk = 60`. -/
theorem get_user_event_gists_data_path_selection {Emb Q : Type} [LinearOrderedRing Q] (env : EventEnv Emb Q)
    (user_id : Nat) (chats : List OpenAICompatibleMessage)
    (require_event_summary : Bool) (θ : Q) (days : Int) (cfg : Config) :
    get_user_event_gists_data env user_id chats require_event_summary θ days cfg =
      if chats ≠ [] ∧ cfg.enable_event_embedding = true then
        search_user_event_gists env user_id
          (String.intercalate "\n" ((chats.drop (chats.length - 3)).map
            (fun m => m.content))) cfg 60 θ days
      else get_user_event_gists env user_id 60 days := by
  simp only [get_user_event_gists_data, pack_latest_chat]
  by_cases hc : chats = []
  · subst hc
    simp
  · cases he : cfg.enable_event_embedding
    · simp [hc, he]
    · simp [hc, he, List.isEmpty_eq_false]

/-- A store holding one row whose embedding is `NULL`. -/
def rowN : UserEventGist Int :=
  { id := 3, user_id := 1, project_id := 0, gist_data := { content := "n" },
    embedding := none, created_at := 90, updated_at := 90 }

/-- The store for the C3 counterexample. -/
def envN : EventEnv Int Int :=
  { store := [rowN], now := 100, project_id := 0,
    cosine_distance := fun _ _ => 0, get_embedding := fun _ => .resolve 0 }

/-- C3 counterexample: with embeddings enabled but an empty chat tail the
function takes the recent-gists path, with a result observably different
from the vector search the claim prescribes. -/
theorem get_user_event_gists_data_empty_tail_counterexample :
    cfgOn.enable_event_embedding = true ∧
    get_user_event_gists_data envN 1 [] true 0 21 cfgOn =
      get_user_event_gists envN 1 60 21 ∧
    get_user_event_gists_data envN 1 [] true 0 21 cfgOn ≠
      search_user_event_gists envN 1 (pack_latest_chat [] 3) cfgOn 60 0 21 := by
  decide

/-! ## C6: profile batch update -/

/-- Whether one batch item keys the given row. -/
def hitsB (user_id : String) (r : ProfileRow) (it : UpdateItem) : Bool :=
  rowKeyMatches user_id it.1 r

/-- The attributes a row ends up with after the batch: the attributes of
the last keyed item that gives some (`attributes is not None`), or the
row's own attributes when no keyed item gives any. -/
def lastAttrsSpec (user_id : String) (batch : List UpdateItem) (r : ProfileRow) :
    List (String × String) :=
  match (batch.filter (fun it => hitsB user_id r it && it.2.2.isSome)).getLast? with
  | some itA => itA.2.2.getD r.attributes
  | none => r.attributes

@[simp]
lemma applyUpdateRow_user_id (user_id profile_id content : String)
    (attributes : Option (List (String × String))) (now : String) (r : ProfileRow) :
    (applyUpdateRow user_id profile_id content attributes now r).user_id = r.user_id := by
  unfold applyUpdateRow
  split <;> rfl

@[simp]
lemma applyUpdateRow_profile_id (user_id profile_id content : String)
    (attributes : Option (List (String × String))) (now : String) (r : ProfileRow) :
    (applyUpdateRow user_id profile_id content attributes now r).profile_id = r.profile_id := by
  unfold applyUpdateRow
  split <;> rfl

@[simp]
lemma applyUpdateRow_created_at (user_id profile_id content : String)
    (attributes : Option (List (String × String))) (now : String) (r : ProfileRow) :
    (applyUpdateRow user_id profile_id content attributes now r).created_at = r.created_at := by
  unfold applyUpdateRow
  split <;> rfl

@[simp]
lemma rowKeyMatches_applyUpdateRow (user_id profile_id content : String)
    (attributes : Option (List (String × String))) (now : String)
    (uid' pid' : String) (r : ProfileRow) :
    rowKeyMatches uid' pid' (applyUpdateRow user_id profile_id content attributes now r) =
      rowKeyMatches uid' pid' r := by
  unfold rowKeyMatches
  rw [applyUpdateRow_user_id, applyUpdateRow_profile_id]

lemma hitsB_applyUpdateRow (user_id profile_id content : String)
    (attributes : Option (List (String × String))) (now : String) (r : ProfileRow) :
    hitsB user_id (applyUpdateRow user_id profile_id content attributes now r) =
      hitsB user_id r := by
  funext it
  unfold hitsB
  rw [rowKeyMatches_applyUpdateRow]

lemma updRowBatch_cons (user_id now : String) (it : UpdateItem)
    (rest : List UpdateItem) (r : ProfileRow) :
    updRowBatch user_id now (it :: rest) r =
      updRowBatch user_id now rest (applyUpdateRow user_id it.1 it.2.1 it.2.2 now r) := rfl

@[simp]
lemma updRowBatch_nil (user_id now : String) (r : ProfileRow) :
    updRowBatch user_id now [] r = r := rfl

lemma updRowBatch_user_id (user_id now : String) (batch : List UpdateItem) :
    ∀ r : ProfileRow, (updRowBatch user_id now batch r).user_id = r.user_id := by
  induction batch with
  | nil => intro r; rfl
  | cons it rest ih =>
    intro r
    rw [updRowBatch_cons, ih, applyUpdateRow_user_id]

lemma updRowBatch_profile_id (user_id now : String) (batch : List UpdateItem) :
    ∀ r : ProfileRow, (updRowBatch user_id now batch r).profile_id = r.profile_id := by
  induction batch with
  | nil => intro r; rfl
  | cons it rest ih =>
    intro r
    rw [updRowBatch_cons, ih, applyUpdateRow_profile_id]

lemma updRowBatch_created_at (user_id now : String) (batch : List UpdateItem) :
    ∀ r : ProfileRow, (updRowBatch user_id now batch r).created_at = r.created_at := by
  induction batch with
  | nil => intro r; rfl
  | cons it rest ih =>
    intro r
    rw [updRowBatch_cons, ih, applyUpdateRow_created_at]

lemma update_profiles_fold (user_id now : String) (batch : List UpdateItem) :
    ∀ (ids : List String) (st : List ProfileRow),
      batch.foldl (fun acc it =>
          (if acc.2.any (rowKeyMatches user_id it.1) then acc.1 ++ [it.1] else acc.1,
           acc.2.map (applyUpdateRow user_id it.1 it.2.1 it.2.2 now))) (ids, st) =
        (ids ++ batch.filterMap
            (fun it => if st.any (rowKeyMatches user_id it.1) then some it.1 else none),
         st.map (updRowBatch user_id now batch)) := by
  induction batch with
  | nil =>
    intro ids st
    have h2 : ∀ l : List ProfileRow, l.map (updRowBatch user_id now []) = l := by
      intro l
      induction l with
      | nil => rfl
      | cons a l ihl => simp [ihl, updRowBatch_nil]
    simp [h2]
  | cons it rest ih =>
    intro ids st
    have hany : ∀ pid : String,
        (st.map (applyUpdateRow user_id it.1 it.2.1 it.2.2 now)).any
            (rowKeyMatches user_id pid) =
          st.any (rowKeyMatches user_id pid) := by
      intro pid
      rw [List.any_map]
      have h : rowKeyMatches user_id pid ∘ applyUpdateRow user_id it.1 it.2.1 it.2.2 now =
          rowKeyMatches user_id pid := by
        funext r
        exact rowKeyMatches_applyUpdateRow _ _ _ _ _ _ _ _
      rw [h]
    have hmap : (st.map (applyUpdateRow user_id it.1 it.2.1 it.2.2 now)).map
        (updRowBatch user_id now rest) = st.map (updRowBatch user_id now (it :: rest)) := by
      rw [List.map_map]
      congr 1
    rw [List.foldl_cons, ih]
    rw [List.filterMap_cons]
    cases hfound : st.any (rowKeyMatches user_id it.1) with
    | true =>
      simp only [hany, hmap, hfound, if_true]
      exact Prod.ext (by simp) rfl
    | false =>
      simp only [hany, hmap, hfound, Bool.false_eq_true, if_false]

lemma updRowBatch_no_hit (user_id now : String) :
    ∀ (batch : List UpdateItem) (r : ProfileRow),
      (∀ it ∈ batch, hitsB user_id r it = false) →
      updRowBatch user_id now batch r = r := by
  intro batch
  induction batch with
  | nil => intro r _; rfl
  | cons it rest ih =>
    intro r h
    have hhead : rowKeyMatches user_id it.1 r = false := h it (List.mem_cons_self it rest)
    have happ : applyUpdateRow user_id it.1 it.2.1 it.2.2 now r = r := by
      unfold applyUpdateRow
      rw [hhead]
      simp
    rw [updRowBatch_cons, happ]
    exact ih r (fun it' hit' => h it' (List.mem_cons_of_mem it hit'))

@[simp]
lemma applyUpdateRow_attributes (user_id profile_id content : String)
    (attributes : Option (List (String × String))) (now : String) (r : ProfileRow) :
    (applyUpdateRow user_id profile_id content attributes now r).attributes =
      if rowKeyMatches user_id profile_id r then attributes.getD r.attributes
      else r.attributes := by
  unfold applyUpdateRow
  split <;> simp [*]

lemma updRowBatch_last_hit (user_id now : String) :
    ∀ (batch : List UpdateItem) (r : ProfileRow) (it0 : UpdateItem),
      (batch.filter (hitsB user_id r)).getLast? = some it0 →
      (updRowBatch user_id now batch r).content = it0.2.1 ∧
      (updRowBatch user_id now batch r).updated_at = now ∧
      (updRowBatch user_id now batch r).attributes = lastAttrsSpec user_id batch r := by
  intro batch
  induction batch with
  | nil => intro r it0 h; simp at h
  | cons it rest ih =>
    intro r it0 h
    by_cases hhit : hitsB user_id r it = true
    · have hkm : rowKeyMatches user_id it.1 r = true := hhit
      have hr1 : applyUpdateRow user_id it.1 it.2.1 it.2.2 now r =
          { r with content := it.2.1, attributes := it.2.2.getD r.attributes,
                   updated_at := now } := by
        unfold applyUpdateRow
        rw [hkm]
        simp
      have hfilter_congr : rest.filter (hitsB user_id
          (applyUpdateRow user_id it.1 it.2.1 it.2.2 now r)) =
            rest.filter (hitsB user_id r) :=
        List.filter_congr (fun it' _ =>
          congrFun (hitsB_applyUpdateRow user_id it.1 it.2.1 it.2.2 now r) it')
      have hgiven_congr : rest.filter (fun it' => hitsB user_id
          (applyUpdateRow user_id it.1 it.2.1 it.2.2 now r) it' && it'.2.2.isSome) =
            rest.filter (fun it' => hitsB user_id r it' && it'.2.2.isSome) :=
        List.filter_congr (fun it' _ => by
          rw [hitsB_applyUpdateRow user_id it.1 it.2.1 it.2.2 now r])
      rw [List.filter_cons_of_pos hhit, List.getLast?_cons] at h
      injection h with h0
      rw [updRowBatch_cons]
      cases hrl : (rest.filter (hitsB user_id r)).getLast? with
      | some itr =>
        have hih := ih (applyUpdateRow user_id it.1 it.2.1 it.2.2 now r) itr
          (by rw [hfilter_congr]; exact hrl)
        have hit0 : itr = it0 := by rw [hrl] at h0; simpa using h0
        subst hit0
        refine ⟨hih.1, hih.2.1, ?_⟩
        rw [hih.2.2]
        unfold lastAttrsSpec
        rw [hgiven_congr]
        cases hg : (rest.filter (fun it' => hitsB user_id r it' && it'.2.2.isSome)).getLast? with
        | some itA =>
          have hmem : itA ∈ rest.filter (fun it' => hitsB user_id r it' && it'.2.2.isSome) :=
            List.mem_of_mem_getLast? hg
          have hA : itA.2.2.isSome = true := by
            have hm := (List.mem_filter.mp hmem).2
            simp only [Bool.and_eq_true] at hm
            exact hm.2
          obtain ⟨a, ha⟩ := Option.isSome_iff_exists.mp hA
          have hall : ((it :: rest).filter
              (fun it' => hitsB user_id r it' && it'.2.2.isSome)).getLast? = some itA := by
            by_cases hgiv : (hitsB user_id r it && it.2.2.isSome) = true
            · rw [List.filter_cons_of_pos (p := fun it' => hitsB user_id r it' && it'.2.2.isSome) hgiv,
                List.getLast?_cons, hg]
              rfl
            · rw [List.filter_cons_of_neg (p := fun it' => hitsB user_id r it' && it'.2.2.isSome) hgiv,
                hg]
          rw [hall]
          simp [ha, hkm]
        | none =>
          by_cases hgiv : (hitsB user_id r it && it.2.2.isSome) = true
          · have hall : ((it :: rest).filter
                (fun it' => hitsB user_id r it' && it'.2.2.isSome)).getLast? = some it := by
              rw [List.filter_cons_of_pos (p := fun it' => hitsB user_id r it' && it'.2.2.isSome) hgiv,
                List.getLast?_cons, hg]
              rfl
            rw [hall]
            simp [hkm]
          · have hall : ((it :: rest).filter
                (fun it' => hitsB user_id r it' && it'.2.2.isSome)).getLast? = none := by
              rw [List.filter_cons_of_neg (p := fun it' => hitsB user_id r it' && it'.2.2.isSome) hgiv,
                hg]
            rw [hall]
            have hnn : it.2.2 = none := by
              cases hcc : it.2.2 with
              | none => rfl
              | some a => exact absurd (by simp [hhit, hcc] : (hitsB user_id r it &&
                  it.2.2.isSome) = true) hgiv
            simp [hkm, hnn]
      | none =>
        have hrnil : rest.filter (hitsB user_id r) = [] :=
          List.getLast?_eq_none_iff.mp hrl
        have hit0 : it = it0 := by rw [hrl] at h0; simpa using h0
        subst hit0
        have hnorest : ∀ it' ∈ rest, hitsB user_id
            (applyUpdateRow user_id it.1 it.2.1 it.2.2 now r) it' = false := by
          intro it' hit'
          rw [congrFun (hitsB_applyUpdateRow user_id it.1 it.2.1 it.2.2 now r) it']
          have hnp := List.filter_eq_nil_iff.mp hrnil it' hit'
          simpa using hnp
        rw [updRowBatch_no_hit user_id now rest _ hnorest, hr1]
        refine ⟨rfl, rfl, ?_⟩
        unfold lastAttrsSpec
        have hgrest : rest.filter (fun it' => hitsB user_id r it' && it'.2.2.isSome) = [] := by
          rw [List.filter_eq_nil_iff]
          intro it' hit'
          have hnp := List.filter_eq_nil_iff.mp hrnil it' hit'
          simp only [Bool.and_eq_true, not_and]
          intro hcon
          exact absurd hcon hnp
        by_cases hgiv : (hitsB user_id r it && it.2.2.isSome) = true
        · rw [List.filter_cons_of_pos (p := fun it' => hitsB user_id r it' && it'.2.2.isSome) hgiv,
            hgrest]
          have hsome : it.2.2.isSome = true := by
            simp only [Bool.and_eq_true] at hgiv
            exact hgiv.2
          obtain ⟨a, ha⟩ := Option.isSome_iff_exists.mp hsome
          simp [ha]
        · rw [List.filter_cons_of_neg (p := fun it' => hitsB user_id r it' && it'.2.2.isSome) hgiv,
            hgrest]
          have hnn : it.2.2 = none := by
            cases hcc : it.2.2 with
            | none => rfl
            | some a => exact absurd (by simp [hhit, hcc] : (hitsB user_id r it &&
                it.2.2.isSome) = true) hgiv
          simp [hnn]
    · have hhitf : hitsB user_id r it = false := by simpa using hhit
      have happ : applyUpdateRow user_id it.1 it.2.1 it.2.2 now r = r := by
        unfold applyUpdateRow
        rw [show rowKeyMatches user_id it.1 r = false from hhitf]
        simp
      rw [List.filter_cons_of_neg (by simpa using hhit)] at h
      rw [updRowBatch_cons, happ]
      have hres := ih r it0 h
      refine ⟨hres.1, hres.2.1, ?_⟩
      rw [hres.2.2]
      unfold lastAttrsSpec
      rw [List.filter_cons_of_neg (p := fun it' => hitsB user_id r it' && it'.2.2.isSome)
        (by simp [hhitf])]

/-- C6: the batch update resolves with exactly the ids of the zipped items
whose keyed row exists (missing ids are silently omitted, never an
error); the table keeps the same rows positionally, each rewritten by the
batch: a row keyed by no item is unchanged, a keyed row gets the content of
the last item keying it, `updated_at = now`, attributes rewritten only by
items that give them, and untouched key and creation fields. -/
theorem update_profiles_spec (state : List ProfileRow) (now user_id : String)
    (profile_ids contents : List String)
    (attributes_list : List (Option (List (String × String)))) :
    (update_profiles state now user_id profile_ids contents attributes_list).1 =
      .resolve ((zip3 profile_ids contents attributes_list).filterMap
        (fun it => if state.any (rowKeyMatches user_id it.1) then some it.1 else none)) ∧
    (update_profiles state now user_id profile_ids contents attributes_list).2 =
      state.map (updRowBatch user_id now (zip3 profile_ids contents attributes_list)) ∧
    (∀ r : ProfileRow,
      (zip3 profile_ids contents attributes_list).filter (hitsB user_id r) = [] →
      updRowBatch user_id now (zip3 profile_ids contents attributes_list) r = r) ∧
    (∀ (r : ProfileRow) (it0 : UpdateItem),
      ((zip3 profile_ids contents attributes_list).filter (hitsB user_id r)).getLast? =
        some it0 →
      (updRowBatch user_id now (zip3 profile_ids contents attributes_list) r).content =
        it0.2.1 ∧
      (updRowBatch user_id now (zip3 profile_ids contents attributes_list) r).updated_at =
        now ∧
      (updRowBatch user_id now (zip3 profile_ids contents attributes_list) r).attributes =
        lastAttrsSpec user_id (zip3 profile_ids contents attributes_list) r ∧
      (updRowBatch user_id now (zip3 profile_ids contents attributes_list) r).user_id =
        r.user_id ∧
      (updRowBatch user_id now (zip3 profile_ids contents attributes_list) r).profile_id =
        r.profile_id ∧
      (updRowBatch user_id now (zip3 profile_ids contents attributes_list) r).created_at =
        r.created_at) := by
  refine ⟨?_, ?_, ?_, ?_⟩
  · unfold update_profiles
    dsimp only
    rw [update_profiles_fold]
    simp
  · unfold update_profiles
    dsimp only
    rw [update_profiles_fold]
  · intro r hnil
    exact updRowBatch_no_hit user_id now _ r
      (fun it hit => by
        rw [List.filter_eq_nil_iff] at hnil
        simpa using hnil it hit)
  · intro r it0 hlast
    have h := updRowBatch_last_hit user_id now _ r it0 hlast
    exact ⟨h.1, h.2.1, h.2.2, updRowBatch_user_id _ _ _ r, updRowBatch_profile_id _ _ _ r,
      updRowBatch_created_at _ _ _ r⟩

/-- C6 witness: a one-row table updated with one present and one missing
id; the theorem applied there, with the last-keyed-item hypothesis
discharged by `decide`. -/
theorem update_profiles_spec_witness :
    (update_profiles [profRowW] "T1" "u" ["p1", "zzz"] ["c1", "c2"] [none, none]).1 =
      .resolve ((zip3 ["p1", "zzz"] ["c1", "c2"]
          ([none, none] : List (Option (List (String × String))))).filterMap
        (fun it => if [profRowW].any (rowKeyMatches "u" it.1) then some it.1 else none)) ∧
    (updRowBatch "u" "T1" (zip3 ["p1", "zzz"] ["c1", "c2"]
        ([none, none] : List (Option (List (String × String))))) profRowW).content = "c1" ∧
    (updRowBatch "u" "T1" (zip3 ["p1", "zzz"] ["c1", "c2"]
        ([none, none] : List (Option (List (String × String))))) profRowW).updated_at = "T1" :=
  ⟨(update_profiles_spec [profRowW] "T1" "u" ["p1", "zzz"] ["c1", "c2"] [none, none]).1,
   ((update_profiles_spec [profRowW] "T1" "u" ["p1", "zzz"] ["c1", "c2"]
      [none, none]).2.2.2 profRowW ("p1", "c1", none) (by decide)).1,
   ((update_profiles_spec [profRowW] "T1" "u" ["p1", "zzz"] ["c1", "c2"]
      [none, none]).2.2.2 profRowW ("p1", "c1", none) (by decide)).2.1⟩

/-! ## C9: façade profile grouping is key-unique, last write wins -/

/-- The keys of an insertion-ordered dict, in order. -/
def dictKeys {β : Type} (d : List (String × β)) : List String :=
  d.map (fun kv => kv.1)

lemma dictLookup_dictInsert_self {β : Type} (d : List (String × β)) (k : String) (v : β) :
    dictLookup (dictInsert d k v) k = some v := by
  induction d with
  | nil => simp [dictInsert, dictLookup]
  | cons kv rest ih =>
    by_cases h : (kv.1 == k) = true
    · simp [dictInsert, h, dictLookup]
    · simp only [dictInsert, h, Bool.false_eq_true, if_false]
      simp only [dictLookup, List.find?] at ih ⊢
      rw [show (kv.1 == k) = false by simpa using h]
      exact ih

lemma dictLookup_dictInsert_ne {β : Type} (d : List (String × β)) (k k' : String)
    (v : β) (h : k' ≠ k) :
    dictLookup (dictInsert d k v) k' = dictLookup d k' := by
  have hbk : (k == k') = false := by simpa using fun he => h he.symm
  induction d with
  | nil => simp [dictInsert, dictLookup, List.find?, hbk]
  | cons kv rest ih =>
    by_cases hh : (kv.1 == k) = true
    · have hk1 : kv.1 = k := by simpa using hh
      simp only [dictInsert, hh, if_true]
      simp only [dictLookup, List.find?, hk1, hbk]
    · simp only [dictInsert, hh, Bool.false_eq_true, if_false]
      simp only [dictLookup, List.find?] at ih ⊢
      cases hkv : (kv.1 == k') with
      | true => rfl
      | false => exact ih

lemma mem_dictInsert {β : Type} (d : List (String × β)) (k : String) (v : β) :
    ∀ p ∈ dictInsert d k v, p = (k, v) ∨ p ∈ d := by
  induction d with
  | nil =>
    intro p hp
    simp [dictInsert] at hp
    exact Or.inl hp
  | cons kv rest ih =>
    intro p hp
    by_cases hh : (kv.1 == k) = true
    · have hk1 : kv.1 = k := by simpa using hh
      simp only [dictInsert, hh, if_true] at hp
      rcases List.mem_cons.mp hp with h1 | h2
      · exact Or.inl (by rw [h1, hk1])
      · exact Or.inr (List.mem_cons_of_mem kv h2)
    · simp only [dictInsert, hh, Bool.false_eq_true, if_false] at hp
      rcases List.mem_cons.mp hp with h1 | h2
      · exact Or.inr (by rw [h1]; exact List.mem_cons_self kv rest)
      · rcases ih p h2 with h3 | h4
        · exact Or.inl h3
        · exact Or.inr (List.mem_cons_of_mem kv h4)

lemma mem_dictKeys_dictInsert {β : Type} (d : List (String × β)) (k k' : String) (v : β) :
    k' ∈ dictKeys (dictInsert d k v) ↔ k' = k ∨ k' ∈ dictKeys d := by
  induction d with
  | nil => simp [dictInsert, dictKeys]
  | cons kv rest ih =>
    by_cases hh : (kv.1 == k) = true
    · have hk1 : kv.1 = k := by simpa using hh
      simp [dictInsert, hh, dictKeys, hk1]
    · simp only [dictInsert, hh, Bool.false_eq_true, if_false]
      simp only [dictKeys, List.map_cons, List.mem_cons] at ih ⊢
      rw [ih]
      tauto

lemma nodup_dictKeys_dictInsert {β : Type} (d : List (String × β)) (k : String) (v : β)
    (h : (dictKeys d).Nodup) : (dictKeys (dictInsert d k v)).Nodup := by
  induction d with
  | nil => simp [dictInsert, dictKeys]
  | cons kv rest ih =>
    simp only [dictKeys, List.map_cons, List.nodup_cons] at h
    by_cases hh : (kv.1 == k) = true
    · simp only [dictInsert, hh, if_true, dictKeys, List.map_cons, List.nodup_cons]
      exact h
    · have hne : kv.1 ≠ k := by simpa using hh
      simp only [dictInsert, hh, Bool.false_eq_true, if_false, dictKeys, List.map_cons,
        List.nodup_cons]
      constructor
      · intro hmem
        rcases (mem_dictKeys_dictInsert rest k kv.1 v).mp hmem with h1 | h2
        · exact hne h1
        · exact h.1 h2
      · exact ih h.2

lemma dictLookup_eq_of_mem {β : Type} (d : List (String × β)) (k : String) (v : β)
    (hnd : (dictKeys d).Nodup) (hm : (k, v) ∈ d) : dictLookup d k = some v := by
  induction d with
  | nil => simp at hm
  | cons kv rest ih =>
    simp only [dictKeys, List.map_cons, List.nodup_cons] at hnd
    rcases List.mem_cons.mp hm with h1 | h2
    · simp [dictLookup, List.find?, ← h1]
    · have hne : (kv.1 == k) = false := by
        have hk : k ∈ dictKeys rest := by
          simp only [dictKeys, List.mem_map]
          exact ⟨(k, v), h2, rfl⟩
        by_contra hcon
        have : kv.1 = k := by simpa using hcon
        exact hnd.1 (this ▸ hk)
      simp only [dictLookup, List.find?, hne]
      exact ih hnd.2 h2

/-- Nested lookup in the grouping state. -/
def lookup2 (groups : TopicGroups) (t st : String) : Option ProfileEntry :=
  (dictLookup groups t).bind (fun inner => dictLookup inner st)

/-- Well-formedness of the grouping state: topic keys are unique, and so
are the subtopic keys of every topic. -/
def groupsWF (g : TopicGroups) : Prop :=
  (dictKeys g).Nodup ∧ ∀ p ∈ g, (dictKeys p.2).Nodup

lemma dictLookup_some_mem {β : Type} (d : List (String × β)) (k : String) (v : β)
    (h : dictLookup d k = some v) : ∃ kv ∈ d, kv.2 = v := by
  unfold dictLookup at h
  obtain ⟨kv, hfind, hv⟩ := Option.map_eq_some'.mp h
  exact ⟨kv, List.mem_of_find?_eq_some hfind, hv⟩

lemma groupsWF_groupStep (acc : TopicGroups) (pd : ProfileData)
    (h : groupsWF acc) : groupsWF (groupStep acc pd) := by
  unfold groupStep
  constructor
  · exact nodup_dictKeys_dictInsert _ _ _ h.1
  · intro p hp
    rcases mem_dictInsert _ _ _ p hp with h1 | h2
    · rw [h1]
      apply nodup_dictKeys_dictInsert
      cases hl : dictLookup acc (profileTopicOf pd) with
      | none => simp [dictKeys]
      | some inner =>
        obtain ⟨kv, hkv, hv⟩ := dictLookup_some_mem acc (profileTopicOf pd) inner hl
        simpa [hv] using h.2 kv hkv
    · exact h.2 p h2

lemma lookup2_groupStep (acc : TopicGroups) (pd : ProfileData) (t st : String) :
    lookup2 (groupStep acc pd) t st =
      if profileTopicOf pd = t ∧ profileSubtopicOf pd = st then
        some (entryOfProfileData pd)
      else lookup2 acc t st := by
  unfold groupStep lookup2
  by_cases ht : profileTopicOf pd = t
  · rw [ht, dictLookup_dictInsert_self, Option.some_bind]
    by_cases hst : profileSubtopicOf pd = st
    · rw [hst, dictLookup_dictInsert_self, if_pos ⟨rfl, rfl⟩]
    · rw [dictLookup_dictInsert_ne _ _ _ _ (fun he => hst he.symm),
        if_neg (fun hc => hst hc.2)]
      cases hacc : dictLookup acc t with
      | none => simp [dictLookup]
      | some inner => simp
  · rw [dictLookup_dictInsert_ne _ _ _ _ (fun he => ht he.symm),
      if_neg (fun hc => ht hc.1)]

lemma groupsWF_foldl (topics : Option (List String)) :
    ∀ (raw : List ProfileData) (acc : TopicGroups), groupsWF acc →
      groupsWF (raw.foldl
        (fun acc pd => if topicAccepted topics pd then groupStep acc pd else acc) acc) := by
  intro raw
  induction raw with
  | nil => intro acc h; exact h
  | cons pd rest ih =>
    intro acc h
    rw [List.foldl_cons]
    by_cases hacc : topicAccepted topics pd = true
    · rw [if_pos hacc]
      exact ih _ (groupsWF_groupStep acc pd h)
    · rw [if_neg hacc]
      exact ih _ h

lemma lookup2_foldl (topics : Option (List String)) :
    ∀ (raw : List ProfileData) (acc : TopicGroups) (t st : String),
      lookup2 (raw.foldl
          (fun acc pd => if topicAccepted topics pd then groupStep acc pd else acc) acc) t st =
        match (raw.filter (fun pd => topicAccepted topics pd &&
            (profileTopicOf pd == t) && (profileSubtopicOf pd == st))).getLast? with
        | some pd => some (entryOfProfileData pd)
        | none => lookup2 acc t st := by
  intro raw
  induction raw with
  | nil => intro acc t st; rfl
  | cons pd rest ih =>
    intro acc t st
    rw [List.foldl_cons]
    by_cases hacc : topicAccepted topics pd = true
    · rw [if_pos hacc]
      rw [ih (groupStep acc pd) t st]
      cases hrest : (rest.filter (fun pd => topicAccepted topics pd &&
          (profileTopicOf pd == t) && (profileSubtopicOf pd == st))).getLast? with
      | some pd' =>
        have hcons : ((pd :: rest).filter (fun pd => topicAccepted topics pd &&
            (profileTopicOf pd == t) && (profileSubtopicOf pd == st))).getLast? = some pd' := by
          by_cases hc : (topicAccepted topics pd && (profileTopicOf pd == t) &&
              (profileSubtopicOf pd == st)) = true
          · rw [List.filter_cons_of_pos (p := fun pd => topicAccepted topics pd && (profileTopicOf pd == t) && (profileSubtopicOf pd == st)) hc, List.getLast?_cons, hrest]
            rfl
          · rw [List.filter_cons_of_neg (p := fun pd => topicAccepted topics pd && (profileTopicOf pd == t) && (profileSubtopicOf pd == st)) hc, hrest]
        rw [hcons]
      | none =>
        by_cases hc : (topicAccepted topics pd && (profileTopicOf pd == t) &&
            (profileSubtopicOf pd == st)) = true
        · have hcons : ((pd :: rest).filter (fun pd => topicAccepted topics pd &&
              (profileTopicOf pd == t) && (profileSubtopicOf pd == st))).getLast? = some pd := by
            rw [List.filter_cons_of_pos (p := fun pd => topicAccepted topics pd && (profileTopicOf pd == t) && (profileSubtopicOf pd == st)) hc, List.getLast?_cons, hrest]
            rfl
          rw [hcons, lookup2_groupStep]
          have heq : profileTopicOf pd = t ∧ profileSubtopicOf pd = st := by
            simp only [Bool.and_eq_true, beq_iff_eq] at hc
            exact ⟨hc.1.2, hc.2⟩
          rw [if_pos heq]
        · have hcons : ((pd :: rest).filter (fun pd => topicAccepted topics pd &&
              (profileTopicOf pd == t) && (profileSubtopicOf pd == st))).getLast? = none := by
            rw [List.filter_cons_of_neg (p := fun pd => topicAccepted topics pd && (profileTopicOf pd == t) && (profileSubtopicOf pd == st)) hc, hrest]
          rw [hcons, lookup2_groupStep]
          have hne : ¬(profileTopicOf pd = t ∧ profileSubtopicOf pd = st) := by
            intro hcon
            exact hc (by simp [hacc, hcon.1, hcon.2])
          rw [if_neg hne]
    · have haccf : topicAccepted topics pd = false := by simpa using hacc
      rw [if_neg hacc]
      rw [ih acc t st]
      have hcons : ((pd :: rest).filter (fun pd => topicAccepted topics pd &&
          (profileTopicOf pd == t) && (profileSubtopicOf pd == st))) =
            (rest.filter (fun pd => topicAccepted topics pd &&
              (profileTopicOf pd == t) && (profileSubtopicOf pd == st))) := by
        rw [List.filter_cons_of_neg (p := fun pd => topicAccepted topics pd && (profileTopicOf pd == t) && (profileSubtopicOf pd == st)) (by simp [haccf])]
      rw [hcons]

/-- C9: the `Profile` list built by the façade's `get_user_profiles` holds
each topic at most once and, inside each topic, each sub_topic at most
once, even when the storage rows repeat a `(topic, sub_topic)` pair; the
entry kept for a pair is built from the last accepted storage row carrying
that pair. -/
theorem facade_get_user_profiles_dedup (raw : List ProfileData)
    (topics : Option (List String)) (out : List Profile)
    (hout : facade_get_user_profiles (.resolve raw) topics = .ok out) :
    (out.map (fun p => p.topic)).Nodup ∧
    (∀ p ∈ out, (p.subtopics.map (fun s => s.1)).Nodup) ∧
    (∀ p ∈ out, ∀ s ∈ p.subtopics,
      ∃ pd, (raw.filter (fun pd => topicAccepted topics pd &&
          (profileTopicOf pd == p.topic) && (profileSubtopicOf pd == s.1))).getLast? =
            some pd ∧
        s.2 = entryOfProfileData pd) := by
  have hG : out = profilesOfGroups (raw.foldl
      (fun acc pd => if topicAccepted topics pd then groupStep acc pd else acc) []) := by
    have := hout
    unfold facade_get_user_profiles at this
    injection this with h
    exact h.symm
  have hWF : groupsWF (raw.foldl
      (fun acc pd => if topicAccepted topics pd then groupStep acc pd else acc) []) :=
    groupsWF_foldl topics raw [] ⟨List.nodup_nil, by intro p hp; simp at hp⟩
  subst hG
  refine ⟨?_, ?_, ?_⟩
  · have : (profilesOfGroups (raw.foldl
        (fun acc pd => if topicAccepted topics pd then groupStep acc pd else acc) [])).map
          (fun p => p.topic) =
        dictKeys (raw.foldl
          (fun acc pd => if topicAccepted topics pd then groupStep acc pd else acc) []) := by
      unfold profilesOfGroups dictKeys
      rw [List.map_map]
      rfl
    rw [this]
    exact hWF.1
  · intro p hp
    unfold profilesOfGroups at hp
    obtain ⟨g, hg, rfl⟩ := List.mem_map.mp hp
    exact hWF.2 g hg
  · intro p hp s hs
    unfold profilesOfGroups at hp
    obtain ⟨g, hg, rfl⟩ := List.mem_map.mp hp
    have houter : dictLookup (raw.foldl
        (fun acc pd => if topicAccepted topics pd then groupStep acc pd else acc) []) g.1 =
          some g.2 :=
      dictLookup_eq_of_mem _ _ _ hWF.1 (by simpa using hg)
    have hinner : dictLookup g.2 s.1 = some s.2 :=
      dictLookup_eq_of_mem _ _ _ (hWF.2 g hg) (by simpa using hs)
    dsimp only
    have hlk : lookup2 (raw.foldl
        (fun acc pd => if topicAccepted topics pd then groupStep acc pd else acc) []) g.1 s.1 =
          some s.2 := by
      unfold lookup2
      rw [houter, Option.some_bind, hinner]
    rw [lookup2_foldl topics raw [] g.1 s.1] at hlk
    cases hlast : (raw.filter (fun pd => topicAccepted topics pd &&
        (profileTopicOf pd == g.1) && (profileSubtopicOf pd == s.1))).getLast? with
    | some pd =>
      rw [hlast] at hlk
      refine ⟨pd, rfl, ?_⟩
      injection hlk with h
      exact h.symm
    | none =>
      rw [hlast] at hlk
      simp [lookup2, dictLookup] at hlk

/-- A first storage row for `(t, s)`. -/
def pdW1 : ProfileData :=
  { id := "1", content := "old", attributes := [("topic", "t"), ("sub_topic", "s")],
    updated_at := some 1 }

/-- A later storage row for the same `(t, s)` pair. -/
def pdW2 : ProfileData :=
  { id := "2", content := "new", attributes := [("topic", "t"), ("sub_topic", "s")],
    updated_at := some 2 }

/-- The deduplicated output of the C9 witness. -/
def profW : Profile :=
  { topic := "t", subtopics := [("s", { content := "new", last_updated := some 2 })] }

/-- C9 witness: the theorem applied on a duplicated `(topic, sub_topic)`
pair, the grouping hypothesis discharged by `decide`. -/
theorem facade_get_user_profiles_dedup_witness :
    (([profW] : List Profile).map (fun p => p.topic)).Nodup ∧
    (∀ p ∈ ([profW] : List Profile), (p.subtopics.map (fun s => s.1)).Nodup) ∧
    (∀ p ∈ ([profW] : List Profile), ∀ s ∈ p.subtopics,
      ∃ pd, ([pdW1, pdW2].filter (fun pd => topicAccepted none pd &&
          (profileTopicOf pd == p.topic) && (profileSubtopicOf pd == s.1))).getLast? =
            some pd ∧
        s.2 = entryOfProfileData pd) :=
  facade_get_user_profiles_dedup [pdW1, pdW2] none [profW] rfl

end Memobase
